import Mathlib

/-!
Verification development for the density-function evaluation graph of the
Pumpkin terrain generator (`pumpkin-world/src/world_gen/noise/density/mod.rs`).

Conventions of the embedding:
* `f64` values are embedded as `ℚ` (exact arithmetic); where a claim depends
  on floating-point rounding it is modelled explicitly: `roundF32` for `f32`
  literals and `roundF64` (with the refined sampler `sampleF64`) for `f64`
  operations.
* Positions are `UnblendedNoisePos` (the only `NoisePos` variant implemented in
  the file under review): three machine integers, with the no-blend blender, so
  the blending proxies sample the constants 1 and 0 as the spec states.
* Node kinds whose submodules (`math`, `unary`, `noise`, `offset`, `blend`,
  `end`, `weird`, `spline`, and `chunk_sampler`) are not part of the reviewed
  sources are modelled from the spec; each such definition carries a doc
  comment starting with the words `Modelled from the spec`.
-/

/-- A sampling position: the `UnblendedNoisePos` struct (three `i32` fields). -/
structure UnblendedNoisePos where
  x : Int
  y : Int
  z : Int
deriving DecidableEq, Repr

/-- Modelled from the spec: a seeded double-Perlin noise primitive
(`InternalNoise`, module `noise` not under src). The spec treats it as an
opaque sampler `sample(x, y, z) → f64` with a conservative bound
`max_value ≥ |sample|`. -/
structure InternalNoise where
  sample : ℚ → ℚ → ℚ → ℚ
  max_value : ℚ

/-- The `WrapperType` enum of `mod.rs`. -/
inductive WrapperType where
  | Cache2D
  | CacheFlat
  | CacheOnce
  | Interpolated
  | CacheCell
deriving DecidableEq, Repr

/-- Modelled from the spec: the `UnaryType` enum (`unary` module not under
src); the six kinds listed in the spec. -/
inductive UnaryType where
  | Abs
  | Square
  | Cube
  | HalfNeg
  | QuartNeg
  | Squeeze
deriving DecidableEq, Repr

/-- Modelled from the spec: the `BinaryType` enum (`math` module not under
src); the four kinds listed in the spec. -/
inductive BinaryType where
  | Add
  | Mul
  | Min
  | Max
deriving DecidableEq, Repr

/-- Modelled from the spec: the `RarityMapper` enum (`weird` module not under
src): one of two fixed piecewise maps. -/
inductive RarityMapper where
  | Caves
  | Tunnels
deriving DecidableEq, Repr

/-- The `DensityFunction` tagged union of `mod.rs`, restricted to the unbound
(buildable) node kinds; the chunk-bound cache variants are produced only by
the chunk-sampler visitor, which is not part of the reviewed sources. Node
kinds whose payload lives in a missing submodule keep their fields where
`mod.rs` exhibits them (construction sites) and otherwise carry a black-box
evaluator, as the spec prescribes for splines and the interpolated noise. -/
inductive DensityFunction where
  | Clamp (input : DensityFunction) (min max : ℚ)
  | Unary (t : UnaryType) (input : DensityFunction)
  | Noise (noise : InternalNoise) (xz_scale y_scale : ℚ)
  | ShiftA (noise : InternalNoise)
  | ShiftB (noise : InternalNoise)
  | ShiftedNoise (shift_x shift_y shift_z : DensityFunction)
      (xz_scale y_scale : ℚ) (noise : InternalNoise)
  | Spline (eval : UnblendedNoisePos → ℚ)
  | Constant (value : ℚ)
  | Linear (slope offset : ℚ) (input : DensityFunction)
  | Binary (t : BinaryType) (arg1 arg2 : DensityFunction)
  | BlendOffset
  | BlendAlpha
  | BlendDensity (input : DensityFunction)
  | ClampedY (fromY toY : Int) (from_val to_val : ℚ)
  | InterpolatedNoise (sampler : UnblendedNoisePos → ℚ)
  | EndIsland (sampler : UnblendedNoisePos → ℚ)
  | Wierd (input : DensityFunction) (noise : InternalNoise) (rarity : RarityMapper)
  | Range (input : DensityFunction) (min max : ℚ)
      (in_range out_range : DensityFunction)
  | Wrapper (input : DensityFunction) (wrapper : WrapperType)
  | Beardifyer

/-- Rust-shaped clamp of a value to `[lo, hi]`. -/
def clampQ (d lo hi : ℚ) : ℚ :=
  if d < lo then lo else if d > hi then hi else d

/-- Modelled from the spec: `clamped_map` (defined in the parent `noise`
module, not under src). Linear remap of `value` from `[oldStart, oldEnd]` to
`[newStart, newEnd]`, with the interpolation parameter clamped to `[0, 1]`;
this realises the spec sentence `linear in integer Y, clamped` together with
the concrete y = 128 scenario. -/
def clamped_map (value oldStart oldEnd newStart newEnd : ℚ) : ℚ :=
  let d := (value - oldStart) / (oldEnd - oldStart)
  if d < 0 then newStart
  else if d > 1 then newEnd
  else newStart + d * (newEnd - newStart)

/-- Modelled from the spec: per-kind scalar action of a unary node
(`apply_density` of the `unary` module, not under src), following the
formulas of spec section 3. -/
def UnaryType.apply_density (t : UnaryType) (d : ℚ) : ℚ :=
  match t with
  | .Abs => |d|
  | .Square => d * d
  | .Cube => d * d * d
  | .HalfNeg => if d < 0 then d * 0.5 else d
  | .QuartNeg => if d < 0 then d * 0.25 else d
  | .Squeeze => let c := clampQ d (-1) 1; c / 2 - c * c * c / 24

/-- Scalar action of a binary node kind. -/
def BinaryType.apply_densities (t : BinaryType) (a b : ℚ) : ℚ :=
  match t with
  | .Add => a + b
  | .Mul => a * b
  | .Min => min a b
  | .Max => max a b

/-- Modelled from the spec: the two piecewise rarity tables of the `weird`
module are not under src and the spec does not give their numbers; no claim
below depends on them, so the identity map stands in for both. -/
def RarityMapper.map (_ : RarityMapper) (v : ℚ) : ℚ := v

/-- Pointwise sampling of a density-function graph at an unblended position.
The cases implemented in `mod.rs` (`Constant`, `Wrapper`, `Range`,
`ClampedY`, `Beardifyer`) follow that file; the remaining cases are modelled
from the spec formulas of sections 3 and 6 (under the no-blend blender the
blending proxies return the constants 1 and 0, and `BlendDensity` is
transparent). -/
def DensityFunction.sample (f : DensityFunction) (pos : UnblendedNoisePos) : ℚ :=
  match f with
  | .Clamp input mn mx => clampQ (input.sample pos) mn mx
  | .Unary t input => t.apply_density (input.sample pos)
  | .Noise n xz ys => n.sample ((pos.x : ℚ) * xz) ((pos.y : ℚ) * ys) ((pos.z : ℚ) * xz)
  | .ShiftA n => n.sample ((pos.x : ℚ) * 0.25) 0 ((pos.z : ℚ) * 0.25) * 4
  | .ShiftB n => n.sample ((pos.z : ℚ) * 0.25) ((pos.x : ℚ) * 0.25) 0 * 4
  | .ShiftedNoise sx sy sz xz ys n =>
      n.sample ((pos.x : ℚ) * xz + sx.sample pos) ((pos.y : ℚ) * ys + sy.sample pos)
        ((pos.z : ℚ) * xz + sz.sample pos)
  | .Spline eval => eval pos
  | .Constant v => v
  | .Linear s o input => s * input.sample pos + o
  | .Binary t a b => t.apply_densities (a.sample pos) (b.sample pos)
  | .BlendOffset => 0
  | .BlendAlpha => 1
  | .BlendDensity input => input.sample pos
  | .ClampedY fromY toY fv tv =>
      clamped_map (pos.y : ℚ) (fromY : ℚ) (toY : ℚ) fv tv
  | .InterpolatedNoise sampler => sampler pos
  | .EndIsland sampler => sampler pos
  | .Wierd input n rarity =>
      rarity.map (input.sample pos) * n.sample (pos.x : ℚ) (pos.y : ℚ) (pos.z : ℚ)
  | .Range input mn mx inR outR =>
      let d := input.sample pos
      if mn ≤ d ∧ d < mx then inR.sample pos else outR.sample pos
  | .Wrapper input _ => input.sample pos
  | .Beardifyer => 0

/-- Modelled from the spec: the expression constructor of the `math` module
(`BinaryFunction::create`, not under src). It folds constants eagerly with
exactly the rules of spec section 4.1: `add(x, Constant(0)) = x`,
`mul(x, Constant(1)) = x`, `mul(x, Constant(0)) = Constant(0)`,
`add(Linear(s, o, i), Constant(c)) = Linear(s, o + c, i)` and
`mul(Linear(s, o, i), Constant(c)) = Linear(s * c, o * c, i)`. The spec says
`Min`/`Max` MAY short-circuit on static bounds; this model does not, which
the spec permits. -/
def BinaryFunction.create (t : BinaryType) (arg1 arg2 : DensityFunction) :
    DensityFunction :=
  match t with
  | .Add =>
    match arg2 with
    | .Constant c =>
      if c = 0 then arg1
      else
        match arg1 with
        | .Linear s o i => .Linear s (o + c) i
        | _ => .Binary .Add arg1 (.Constant c)
    | _ => .Binary .Add arg1 arg2
  | .Mul =>
    match arg2 with
    | .Constant c =>
      if c = 1 then arg1
      else if c = 0 then .Constant 0
      else
        match arg1 with
        | .Linear s o i => .Linear (s * c) (o * c) i
        | _ => .Binary .Mul arg1 (.Constant c)
    | _ => .Binary .Mul arg1 arg2
  | .Min => .Binary .Min arg1 arg2
  | .Max => .Binary .Max arg1 arg2

/-- Modelled from the spec: the expression constructor of the `unary` module
(`UnaryFunction::create`, not under src). -/
def UnaryFunction.create (t : UnaryType) (input : DensityFunction) :
    DensityFunction :=
  .Unary t input

/-- The `clamp` helper of `mod.rs` (lines 813-819): note the parameter order
`(max, min)` and that the struct fields are filled as `min := min`,
`max := max`. -/
def DensityFunction.clamp (f : DensityFunction) (max min : ℚ) : DensityFunction :=
  .Clamp f min max

/-- The `abs` helper of `mod.rs`. -/
def DensityFunction.abs (f : DensityFunction) : DensityFunction :=
  UnaryFunction.create .Abs f

/-- The `square` helper of `mod.rs`. -/
def DensityFunction.square (f : DensityFunction) : DensityFunction :=
  UnaryFunction.create .Square f

/-- The `cube` helper of `mod.rs`. -/
def DensityFunction.cube (f : DensityFunction) : DensityFunction :=
  UnaryFunction.create .Cube f

/-- The `half_negative` helper of `mod.rs`. -/
def DensityFunction.half_negative (f : DensityFunction) : DensityFunction :=
  UnaryFunction.create .HalfNeg f

/-- The `quarter_negative` helper of `mod.rs`. -/
def DensityFunction.quarter_negative (f : DensityFunction) : DensityFunction :=
  UnaryFunction.create .QuartNeg f

/-- The `squeeze` helper of `mod.rs`. -/
def DensityFunction.squeeze (f : DensityFunction) : DensityFunction :=
  UnaryFunction.create .Squeeze f

/-- The `add` helper of `mod.rs`. -/
def DensityFunction.add (f other : DensityFunction) : DensityFunction :=
  BinaryFunction.create .Add f other

/-- The `add_const` helper of `mod.rs`. -/
def DensityFunction.add_const (f : DensityFunction) (val : ℚ) : DensityFunction :=
  f.add (.Constant val)

/-- The `mul` helper of `mod.rs`. -/
def DensityFunction.mul (f other : DensityFunction) : DensityFunction :=
  BinaryFunction.create .Mul f other

/-- The `mul_const` helper of `mod.rs`. -/
def DensityFunction.mul_const (f : DensityFunction) (val : ℚ) : DensityFunction :=
  f.mul (.Constant val)

/-- The `binary_min` helper of `mod.rs`. -/
def DensityFunction.binary_min (f other : DensityFunction) : DensityFunction :=
  BinaryFunction.create .Min f other

/-- The `binary_max` helper of `mod.rs`. -/
def DensityFunction.binary_max (f other : DensityFunction) : DensityFunction :=
  BinaryFunction.create .Max f other

/-- Static lower bound `min()`. The cases implemented in `mod.rs`
(`Constant`, `Wrapper`, `Range`, `ClampedY`, `Beardifyer`) follow that file;
`Noise`, `ShiftA`/`ShiftB`, `ShiftedNoise`, `Clamp` and the blending proxies
are modelled from the bounds the spec states for them; the remaining kinds
live in missing submodules with no spec formula and report the stand-in 0
(no claim below concerns their bounds). -/
def DensityFunction.minimum (f : DensityFunction) : ℚ :=
  match f with
  | .Constant v => v
  | .Wrapper input _ => input.minimum
  | .Range _ _ _ inR outR => min inR.minimum outR.minimum
  | .ClampedY _ _ fv tv => min fv tv
  | .Beardifyer => 0
  | .Clamp _ mn _ => mn
  | .Noise n _ _ => -n.max_value
  | .ShiftA n => -(4 * n.max_value)
  | .ShiftB n => -(4 * n.max_value)
  | .ShiftedNoise _ _ _ _ _ n => -n.max_value
  | .BlendAlpha => 1
  | .BlendOffset => 0
  | .BlendDensity input => input.minimum
  | _ => 0

/-- Static upper bound `max()`; see `DensityFunction.minimum`. -/
def DensityFunction.maximum (f : DensityFunction) : ℚ :=
  match f with
  | .Constant v => v
  | .Wrapper input _ => input.maximum
  | .Range _ _ _ inR outR => max inR.maximum outR.maximum
  | .ClampedY _ _ fv tv => max fv tv
  | .Beardifyer => 0
  | .Clamp _ _ mx => mx
  | .Noise n _ _ => n.max_value
  | .ShiftA n => 4 * n.max_value
  | .ShiftB n => 4 * n.max_value
  | .ShiftedNoise _ _ _ _ _ n => n.max_value
  | .BlendAlpha => 1
  | .BlendOffset => 0
  | .BlendDensity input => input.maximum
  | _ => 0

/-- `map_range` of `mod.rs` (lines 771-778). -/
def map_range (function : DensityFunction) (mn mx : ℚ) : DensityFunction :=
  let d := (mn + mx) * 0.5
  let e := (mx - mn) * 0.5
  (DensityFunction.Constant d).add ((DensityFunction.Constant e).mul function)

/-- `noise_in_range` of `mod.rs` (lines 753-769). -/
def noise_in_range (noise : InternalNoise) (xz_scale y_scale mn mx : ℚ) :
    DensityFunction :=
  map_range (.Noise noise xz_scale y_scale) mn mx

/-- `lerp_density_static_start` of `mod.rs` (lines 1240-1246). -/
def lerp_density_static_start (delta : DensityFunction) (start : ℚ)
    (endD : DensityFunction) : DensityFunction :=
  (delta.mul (endD.add_const (-start))).add_const start

/-- `lerp_density` of `mod.rs` (lines 1223-1238): when the start node is a
`Constant` the static-start specialization is taken; otherwise the delta is
wrapped in a `CacheOnce` wrapper and `start * (1 - delta) + end * delta` is
built. -/
def lerp_density (delta start endD : DensityFunction) : DensityFunction :=
  match start with
  | .Constant c => lerp_density_static_start delta c endD
  | _ =>
    let function := DensityFunction.Wrapper delta .CacheOnce
    let function2 := (function.mul_const (-1)).add_const 1
    (start.mul function2).add (endD.mul function)

/-- `apply_blending` of `mod.rs` (lines 733-751). -/
def apply_blending (function blend : DensityFunction) : DensityFunction :=
  let function := lerp_density .BlendAlpha blend function
  .Wrapper (.Wrapper function .Cache2D) .CacheFlat

/-- `veritcal_range_choice` of `mod.rs` (lines 704-721). -/
def veritcal_range_choice (input in_range : DensityFunction) (mn mx out : Int) :
    DensityFunction :=
  .Wrapper
    (.Range input (mn : ℚ) ((mx + 1 : Int) : ℚ) in_range (.Constant (out : ℚ)))
    .Interpolated

/-- The `SlopedCheeseResult` record of `mod.rs`. -/
structure SlopedCheeseResult where
  offset : DensityFunction
  factor : DensityFunction
  depth : DensityFunction
  jaggedness : DensityFunction
  sloped_cheese : DensityFunction

/-- Modelled from the spec: the three spline builders of the
`terrain_params` module (`create_offset_spline`, `create_factor_spline`,
`create_jaggedness_spline`) are not under src and the spec treats every
spline as a black-box `f(x, y, z)`; each builder is an abstract map from its
density-function arguments and the `amplified` flag to such an evaluator. -/
structure SplineBuilders where
  create_offset_spline :
    DensityFunction → DensityFunction → DensityFunction → Bool →
      UnblendedNoisePos → ℚ
  create_factor_spline :
    DensityFunction → DensityFunction → DensityFunction → DensityFunction →
      Bool → UnblendedNoisePos → ℚ
  create_jaggedness_spline :
    DensityFunction → DensityFunction → DensityFunction → DensityFunction →
      Bool → UnblendedNoisePos → ℚ

/-- The exact rational value of the `f32` literal `0.50375f32`
(= `8451523 * 2 ^ (-24)`); `-0.50375f32 as f64` widens it without further
rounding. The equation with `roundF32` is proved in the C2 theorem below. -/
def offset_shift_const : ℚ := -(8451523 / 16777216)

/-- `sloped_cheese_function` of `mod.rs` (lines 629-698), with the black-box
spline builders passed explicitly. -/
def sloped_cheese_function (sb : SplineBuilders)
    (jagged_noise continents erosion ridges ridges_folded blend_offset ten
      zero base_3d_noise : DensityFunction) (amplified : Bool) :
    SlopedCheeseResult :=
  let offset :=
    apply_blending
      ((DensityFunction.Spline
        (sb.create_offset_spline continents erosion ridges amplified)).add_const
        offset_shift_const)
      blend_offset
  let factor :=
    apply_blending
      (.Spline
        (sb.create_factor_spline continents erosion ridges ridges_folded
          amplified))
      ten
  let depth :=
    (DensityFunction.ClampedY (-64) 320 1.564 (-1.5)).add offset
  let jaggedness :=
    apply_blending
      (.Spline
        (sb.create_jaggedness_spline continents erosion ridges ridges_folded
          amplified))
      zero
  let density1 := jaggedness.mul jagged_noise.half_negative
  let density2 :=
    (DensityFunction.Constant 4).mul
      (((depth.add density1).mul factor).quarter_negative)
  let sloped_cheese := density2.add base_3d_noise
  { offset := offset, factor := factor, depth := depth,
    jaggedness := jaggedness, sloped_cheese := sloped_cheese }

/-- Round a rational to the nearest integer, ties to even. -/
def roundHalfEven (m : ℚ) : Int :=
  let n := ⌊m⌋
  let frac := m - (n : ℚ)
  if frac < 1 / 2 then n
  else if frac > 1 / 2 then n + 1
  else if n % 2 = 0 then n else n + 1

/-- Round a positive rational to the nearest IEEE-754 binary32 value
(round-to-nearest, ties-to-even), assuming the result is a normal number;
`Int.log 2 x` is the floor of the base-2 logarithm. -/
def roundF32pos (x : ℚ) : ℚ :=
  let e := Int.log 2 x
  let m := x * (2 : ℚ) ^ (23 - e)
  (roundHalfEven m : ℚ) * (2 : ℚ) ^ (e - 23)

/-- Round a rational to the nearest IEEE-754 binary32 value (normal range). -/
def roundF32 (x : ℚ) : ℚ :=
  if x = 0 then 0
  else if x < 0 then -roundF32pos (-x)
  else roundF32pos x

/-- The exact rational value of the `f32` literal `0.6666667f32`. -/
def f32_two_thirds : ℚ := 11184811 / 16777216

/-- The exact rational value of the `f32` literal `0.33333334f32`. -/
def f32_one_third : ℚ := 11184811 / 33554432

/-- `peaks_valleys_noise` of `mod.rs` (lines 700-702):
`-((variance.abs() - 0.6666667f32).abs() - 0.33333334f32) * 3f32`, computed
in `f32`; every inexact intermediate step is rounded by `roundF32`
(absolute value and negation are exact in IEEE-754). -/
def peaks_valleys_noise (variance : ℚ) : ℚ :=
  roundF32 (-(roundF32 (|roundF32 (|variance| - f32_two_thirds)| - f32_one_third)) * 3)

/-- The `caves_spaghetti_roughness_function_overworld` builder of `mod.rs`
(lines 315-342), parameterized by its two noise records. -/
def caves_spaghetti_roughness_function_overworld
    (spaghetti_roughness_modulator spaghetti_roughness : InternalNoise) :
    DensityFunction :=
  .Wrapper
    ((noise_in_range spaghetti_roughness_modulator 1 1 0 (-0.1)).mul
      (((DensityFunction.Noise spaghetti_roughness 1 1).abs).add_const (-0.4)))
    .CacheOnce

/-- The `caves_spaghetti_2d_thickness_modular_overworld` builder of `mod.rs`
(lines 344-355). -/
def caves_spaghetti_2d_thickness_modular_overworld
    (spaghetti_2d_thickness : InternalNoise) : DensityFunction :=
  .Wrapper (noise_in_range spaghetti_2d_thickness 2 1 (-0.6) (-1.3)) .CacheOnce

/-- The `caves_spaghetti_2d_overworld` builder of `mod.rs` (lines 357-401),
parameterized by its noise records; `(-64i32) / 8i32` is integer division. -/
def caves_spaghetti_2d_overworld
    (spaghetti_2d_modulator spaghetti_2d spaghetti_2d_elevation
      spaghetti_2d_thickness : InternalNoise) : DensityFunction :=
  let function1 := DensityFunction.Noise spaghetti_2d_modulator 2 1
  let function2 := DensityFunction.Wierd function1 spaghetti_2d .Caves
  let function3 :=
    noise_in_range spaghetti_2d_elevation 1 0 ((((-64 : Int) / 8 : Int)) : ℚ) 8
  let function4 :=
    caves_spaghetti_2d_thickness_modular_overworld spaghetti_2d_thickness
  let function5 :=
    function3.add ((DensityFunction.ClampedY (-64) 320 8 (-40)).abs)
  let function6 := ((function5.add function4).cube)
  let function7 := function2.add (function4.mul_const 0.083)
  (function7.binary_max function6).clamp (-1) 1

/-- The `caves_entrances_overworld` builder of `mod.rs` (lines 403-470),
parameterized by its noise records. -/
def caves_entrances_overworld
    (spaghetti_3d_rarity spaghetti_3d_thickness spaghetti_3d_1 spaghetti_3d_2
      spaghetti_roughness_modulator spaghetti_roughness cave_entrance :
      InternalNoise) : DensityFunction :=
  let function := DensityFunction.Noise spaghetti_3d_rarity 2 1
  let function2 := noise_in_range spaghetti_3d_thickness 1 1 (-0.065) (-0.088)
  let function3 := DensityFunction.Wierd function spaghetti_3d_1 .Tunnels
  let function4 := DensityFunction.Wierd function spaghetti_3d_2 .Tunnels
  let function5 := ((function3.binary_max function4).add function2).clamp (-1) 1
  let function6 :=
    caves_spaghetti_roughness_function_overworld spaghetti_roughness_modulator
      spaghetti_roughness
  let function7 := DensityFunction.Noise cave_entrance 0.75 0.5
  let function8 :=
    (function7.add_const 0.37).add (.ClampedY (-10) 30 0.3 0)
  .Wrapper (function8.binary_min (function6.add function5)) .CacheOnce

/-- All `(min, max)` field pairs of the `Clamp` nodes of a graph, collected
in post-order over every density-function child. -/
def DensityFunction.clampBounds (f : DensityFunction) : List (ℚ × ℚ) :=
  match f with
  | .Clamp input mn mx => input.clampBounds ++ [(mn, mx)]
  | .Unary _ input => input.clampBounds
  | .ShiftedNoise sx sy sz _ _ _ =>
      sx.clampBounds ++ sy.clampBounds ++ sz.clampBounds
  | .Linear _ _ input => input.clampBounds
  | .Binary _ a b => a.clampBounds ++ b.clampBounds
  | .BlendDensity input => input.clampBounds
  | .Wierd input _ _ => input.clampBounds
  | .Range input _ _ inR outR =>
      input.clampBounds ++ inR.clampBounds ++ outR.clampBounds
  | .Wrapper input _ => input.clampBounds
  | _ => []

/-- Modelled from the spec: an applier (`ApplierImpl`) abstracted to its
`at` operation, an indexed source of positions. -/
structure Applier where
  atIdx : Nat → UnblendedNoisePos

/-- Write `g 0, …, g (k - 1)` into a buffer of length `k`. -/
def fillWith (g : Nat → ℚ) (k : Nat) : List ℚ :=
  (List.range k).map g

/-- Modelled from the spec: the `fill` operation of the `ApplierImpl` trait.
Its implementations live in the chunk-sampler module (not under src); the
spec bulk-consistency contract states that slot `i` receives the density of
the function at `at(i)`. -/
def Applier.fill (a : Applier) (densities : List ℚ) (f : DensityFunction) :
    List ℚ :=
  fillWith (fun i => f.sample (a.atIdx i)) densities.length

/-- Bulk fill of an unbound graph. The cases implemented in `mod.rs` follow
that file: `Constant` and `Beardifyer` fill the buffer with their constant,
`Wrapper` delegates to its input, `Range` first fills with the selector
input and then replaces each slot by the matching branch sampled at
`at(i)`, and `ClampedY` delegates to the applier. The node kinds of the
missing submodules use the default implementation the spec describes
(sample at `at(i)` for each index). -/
def DensityFunction.fill (f : DensityFunction) (densities : List ℚ)
    (applier : Applier) : List ℚ :=
  match f with
  | .Constant v => densities.map fun _ => v
  | .Beardifyer => densities.map fun _ => 0
  | .Wrapper input _ => input.fill densities applier
  | .Range input mn mx inR outR =>
      let vals := input.fill densities applier
      fillWith
        (fun i =>
          let v := vals.getD i 0
          if mn ≤ v ∧ v < mx then inR.sample (applier.atIdx i)
          else outR.sample (applier.atIdx i))
        vals.length
  | .ClampedY fromY toY fv tv =>
      applier.fill densities (.ClampedY fromY toY fv tv)
  | g => fillWith (fun i => g.sample (applier.atIdx i)) densities.length

/-- Post-order structural transform: the `apply` operation of the
`DensityFunctionImpl` trait specialised to a pure rewriting visitor. Each
node first rewrites its children and then hands the rebuilt node to the
visitor, as `mod.rs` does for its five node kinds and the spec section 4.1
default prescribes for the rest (the spline evaluator is a black box, so a
spline node has no density-function children to rewrite here). -/
def DensityFunction.applyVisitor (v : DensityFunction → DensityFunction) :
    DensityFunction → DensityFunction
  | .Clamp input mn mx => v (.Clamp (input.applyVisitor v) mn mx)
  | .Unary t input => v (.Unary t (input.applyVisitor v))
  | .Noise n xz ys => v (.Noise n xz ys)
  | .ShiftA n => v (.ShiftA n)
  | .ShiftB n => v (.ShiftB n)
  | .ShiftedNoise sx sy sz xz ys n =>
      v (.ShiftedNoise (sx.applyVisitor v) (sy.applyVisitor v)
          (sz.applyVisitor v) xz ys n)
  | .Spline eval => v (.Spline eval)
  | .Constant c => v (.Constant c)
  | .Linear s o input => v (.Linear s o (input.applyVisitor v))
  | .Binary t a b => v (.Binary t (a.applyVisitor v) (b.applyVisitor v))
  | .BlendOffset => v .BlendOffset
  | .BlendAlpha => v .BlendAlpha
  | .BlendDensity input => v (.BlendDensity (input.applyVisitor v))
  | .ClampedY fromY toY fv tv => v (.ClampedY fromY toY fv tv)
  | .InterpolatedNoise sampler => v (.InterpolatedNoise sampler)
  | .EndIsland sampler => v (.EndIsland sampler)
  | .Wierd input n rarity => v (.Wierd (input.applyVisitor v) n rarity)
  | .Range input mn mx inR outR =>
      v (.Range (input.applyVisitor v) mn mx (inR.applyVisitor v)
          (outR.applyVisitor v))
  | .Wrapper input w => v (.Wrapper (input.applyVisitor v) w)
  | .Beardifyer => v .Beardifyer

/-- The node-level action of `UnwrapVisitor` (`mod.rs` lines 952-959):
a `Wrapper` is replaced by its (already rewritten) wrapped input, every
other node is returned unchanged. -/
def unwrapVisitor (f : DensityFunction) : DensityFunction :=
  match f with
  | .Wrapper input _ => input
  | g => g

/-- Whether a node is a `Wrapper` node. -/
def DensityFunction.isWrapper (f : DensityFunction) : Bool :=
  match f with
  | .Wrapper _ _ => true
  | _ => false

/-- Whether a graph contains no `Wrapper` node anywhere. -/
def DensityFunction.wrapperFree (f : DensityFunction) : Bool :=
  match f with
  | .Clamp input _ _ => input.wrapperFree
  | .Unary _ input => input.wrapperFree
  | .ShiftedNoise sx sy sz _ _ _ =>
      sx.wrapperFree && sy.wrapperFree && sz.wrapperFree
  | .Linear _ _ input => input.wrapperFree
  | .Binary _ a b => a.wrapperFree && b.wrapperFree
  | .BlendDensity input => input.wrapperFree
  | .Wierd input _ _ => input.wrapperFree
  | .Range input _ _ inR outR =>
      input.wrapperFree && inR.wrapperFree && outR.wrapperFree
  | .Wrapper _ _ => false
  | _ => true

/-- Bulk consistency of a node: every `fill` leaves the buffer with the same
length and with slot `i` holding the sample at `at(i)`, for every buffer and
applier. -/
def FillConsistent (f : DensityFunction) : Prop :=
  ∀ (buf : List ℚ) (a : Applier),
    (f.fill buf a).length = buf.length
    ∧ ∀ i : Nat, i < buf.length →
        (f.fill buf a)[i]? = some (f.sample (a.atIdx i))

/-- Whether a node is a `Constant` node. -/
def DensityFunction.isConstant (f : DensityFunction) : Bool :=
  match f with
  | .Constant _ => true
  | _ => false

/-- Whether a node is a `Linear` node. -/
def DensityFunction.isLinear (f : DensityFunction) : Bool :=
  match f with
  | .Linear _ _ _ => true
  | _ => false

/-- Round a positive rational to the nearest IEEE-754 binary64 value
(round-to-nearest, ties-to-even), assuming the result is a normal number;
`Int.log 2 x` is the floor of the base-2 logarithm. -/
def roundF64pos (x : ℚ) : ℚ :=
  let e := Int.log 2 x
  let m := x * (2 : ℚ) ^ (52 - e)
  (roundHalfEven m : ℚ) * (2 : ℚ) ^ (e - 52)

/-- Round a rational to the nearest IEEE-754 binary64 value (normal range). -/
def roundF64 (x : ℚ) : ℚ :=
  if x = 0 then 0
  else if x < 0 then -roundF64pos (-x)
  else roundF64pos x

/-- A refinement of `sample` that models `f64` arithmetic faithfully where it
matters for the claims below: every addition and multiplication performed by
the `Binary`, `Linear` and `Unary` node kinds (the kinds the `lerp_density`
paths build) is rounded to binary64 with `roundF64`, mirroring the op order
of the source formulas. The remaining kinds keep their `sample` semantics:
their values stand for the `f64` outputs of black-box samplers, or are
comparisons and selections, which are exact in IEEE-754. -/
def DensityFunction.sampleF64 (f : DensityFunction) (pos : UnblendedNoisePos) : ℚ :=
  match f with
  | .Clamp input mn mx => clampQ (input.sampleF64 pos) mn mx
  | .Unary t input =>
      let d := input.sampleF64 pos
      match t with
      | .Abs => |d|
      | .Square => roundF64 (d * d)
      | .Cube => roundF64 (roundF64 (d * d) * d)
      | .HalfNeg => if d < 0 then roundF64 (d * 0.5) else d
      | .QuartNeg => if d < 0 then roundF64 (d * 0.25) else d
      | .Squeeze =>
          let c := clampQ d (-1) 1
          roundF64 (roundF64 (c / 2) -
            roundF64 (roundF64 (roundF64 (c * c) * c) / 24))
  | .Noise n xz ys =>
      n.sample ((pos.x : ℚ) * xz) ((pos.y : ℚ) * ys) ((pos.z : ℚ) * xz)
  | .ShiftA n => n.sample ((pos.x : ℚ) * 0.25) 0 ((pos.z : ℚ) * 0.25) * 4
  | .ShiftB n => n.sample ((pos.z : ℚ) * 0.25) ((pos.x : ℚ) * 0.25) 0 * 4
  | .ShiftedNoise sx sy sz xz ys n =>
      n.sample ((pos.x : ℚ) * xz + sx.sampleF64 pos)
        ((pos.y : ℚ) * ys + sy.sampleF64 pos)
        ((pos.z : ℚ) * xz + sz.sampleF64 pos)
  | .Spline eval => eval pos
  | .Constant v => v
  | .Linear s o input => roundF64 (roundF64 (s * input.sampleF64 pos) + o)
  | .Binary t a b =>
      match t with
      | .Add => roundF64 (a.sampleF64 pos + b.sampleF64 pos)
      | .Mul => roundF64 (a.sampleF64 pos * b.sampleF64 pos)
      | .Min => min (a.sampleF64 pos) (b.sampleF64 pos)
      | .Max => max (a.sampleF64 pos) (b.sampleF64 pos)
  | .BlendOffset => 0
  | .BlendAlpha => 1
  | .BlendDensity input => input.sampleF64 pos
  | .ClampedY fromY toY fv tv =>
      clamped_map (pos.y : ℚ) (fromY : ℚ) (toY : ℚ) fv tv
  | .InterpolatedNoise sampler => sampler pos
  | .EndIsland sampler => sampler pos
  | .Wierd input n rarity =>
      rarity.map (input.sampleF64 pos) *
        n.sample (pos.x : ℚ) (pos.y : ℚ) (pos.z : ℚ)
  | .Range input mn mx inR outR =>
      let d := input.sampleF64 pos
      if mn ≤ d ∧ d < mx then inR.sampleF64 pos else outR.sampleF64 pos
  | .Wrapper input _ => input.sampleF64 pos
  | .Beardifyer => 0

theorem sample_create_add (a b : DensityFunction) (p : UnblendedNoisePos) :
    (BinaryFunction.create .Add a b).sample p = a.sample p + b.sample p := by
  cases b <;>
    simp only [BinaryFunction.create, DensityFunction.sample,
      BinaryType.apply_densities]
  case Constant c =>
    rcases eq_or_ne c 0 with hc | hc
    · simp [hc, DensityFunction.sample]
    · rw [if_neg hc]
      cases a <;>
        simp [DensityFunction.sample, BinaryType.apply_densities] <;> ring

theorem sample_create_mul (a b : DensityFunction) (p : UnblendedNoisePos) :
    (BinaryFunction.create .Mul a b).sample p = a.sample p * b.sample p := by
  cases b <;>
    simp only [BinaryFunction.create, DensityFunction.sample,
      BinaryType.apply_densities]
  case Constant c =>
    rcases eq_or_ne c 1 with hc1 | hc1
    · simp [hc1, DensityFunction.sample]
    · rw [if_neg hc1]
      rcases eq_or_ne c 0 with hc0 | hc0
      · simp [hc0, DensityFunction.sample]
      · rw [if_neg hc0]
        cases a <;>
          simp [DensityFunction.sample, BinaryType.apply_densities] <;> ring

theorem sample_add (a b : DensityFunction) (p : UnblendedNoisePos) :
    (a.add b).sample p = a.sample p + b.sample p :=
  sample_create_add a b p

theorem sample_mul (a b : DensityFunction) (p : UnblendedNoisePos) :
    (a.mul b).sample p = a.sample p * b.sample p :=
  sample_create_mul a b p

theorem sample_add_const (a : DensityFunction) (c : ℚ) (p : UnblendedNoisePos) :
    (a.add_const c).sample p = a.sample p + c :=
  sample_create_add a (.Constant c) p

theorem sample_mul_const (a : DensityFunction) (c : ℚ) (p : UnblendedNoisePos) :
    (a.mul_const c).sample p = a.sample p * c :=
  sample_create_mul a (.Constant c) p

theorem sample_lerp_density (delta start endD : DensityFunction)
    (p : UnblendedNoisePos) :
    (lerp_density delta start endD).sample p =
      start.sample p * (1 - delta.sample p) + endD.sample p * delta.sample p := by
  cases start <;>
    simp only [lerp_density, lerp_density_static_start, sample_add, sample_mul,
      sample_add_const, sample_mul_const, DensityFunction.sample,
      BinaryType.apply_densities] <;>
    ring

theorem sample_apply_blending (function blend : DensityFunction)
    (p : UnblendedNoisePos) :
    (apply_blending function blend).sample p = function.sample p := by
  show (lerp_density .BlendAlpha blend function).sample p = _
  rw [sample_lerp_density]
  simp [DensityFunction.sample]

/-- C1: a `Range` node samples its `in_range` branch exactly when the
selector input samples into `[lo, hi)` (lower bound inclusive, upper bound
exclusive) and its `out_range` branch otherwise; in particular the node
`Range(Constant(0.5), 0, 1, Constant(7), Constant(9))` samples 7 at every
position, and the same node with input `Constant(-0.1)` samples 9. -/
theorem range_sample_selects_branch :
    (∀ (input : DensityFunction) (lo hi : ℚ)
        (in_range out_range : DensityFunction) (p : UnblendedNoisePos),
      (DensityFunction.Range input lo hi in_range out_range).sample p =
        if lo ≤ input.sample p ∧ input.sample p < hi then in_range.sample p
        else out_range.sample p)
    ∧ (∀ p : UnblendedNoisePos,
      (DensityFunction.Range (.Constant 0.5) 0 1 (.Constant 7)
        (.Constant 9)).sample p = 7)
    ∧ (∀ p : UnblendedNoisePos,
      (DensityFunction.Range (.Constant (-0.1)) 0 1 (.Constant 7)
        (.Constant 9)).sample p = 9) := by
  refine ⟨fun input lo hi inR outR p => rfl, fun p => ?_, fun p => ?_⟩ <;>
    norm_num [DensityFunction.sample]

/-- C6: `noise_in_range(noise, xz_scale, y_scale, min, max)` is exactly
`map_range` applied to the plain `Noise` node, `map_range` builds the graph
`Constant((min + max) / 2) + Constant((max - min) / 2) * f`, and the node
samples to `(min + max) / 2 + (max - min) / 2 * Noise(...).sample(p)` at
every position. -/
theorem noise_in_range_is_map_range :
    ∀ (n : InternalNoise) (xz ys mn mx : ℚ) (p : UnblendedNoisePos),
      noise_in_range n xz ys mn mx = map_range (.Noise n xz ys) mn mx
      ∧ map_range (.Noise n xz ys) mn mx =
          .Binary .Add (.Constant ((mn + mx) * 0.5))
            (.Binary .Mul (.Constant ((mx - mn) * 0.5)) (.Noise n xz ys))
      ∧ (noise_in_range n xz ys mn mx).sample p =
          (mn + mx) / 2 +
            (mx - mn) / 2 * (DensityFunction.Noise n xz ys).sample p := by
  intro n xz ys mn mx p
  refine ⟨rfl, rfl, ?_⟩
  show (DensityFunction.Binary .Add (.Constant ((mn + mx) * 0.5))
      (.Binary .Mul (.Constant ((mx - mn) * 0.5)) (.Noise n xz ys))).sample p = _
  simp only [DensityFunction.sample, BinaryType.apply_densities]
  ring


theorem roundF32_eq (x y : ℚ) (e : Int) (h1 : (2 : ℚ) ^ e ≤ x)
    (h2 : x < (2 : ℚ) ^ (e + 1))
    (h3 : (roundHalfEven (x * (2 : ℚ) ^ (23 - e)) : ℚ) * (2 : ℚ) ^ (e - 23) = y) :
    roundF32 x = y := by
  have hx : 0 < x := lt_of_lt_of_le (zpow_pos (by norm_num) e) h1
  have hlog : Int.log 2 x = e := by
    have hb : (1 : ℕ) < 2 := by norm_num
    have hcast : ((2 : ℕ) : ℚ) = 2 := by norm_num
    have hle : (2 : ℚ) ^ (Int.log 2 x) ≤ x := by
      have := Int.zpow_log_le_self (b := 2) (r := x) hb hx
      rwa [hcast] at this
    have hlt : x < (2 : ℚ) ^ (Int.log 2 x + 1) := by
      have := Int.lt_zpow_succ_log_self (b := 2) (r := x) hb
      rwa [hcast] at this
    have h5 : (2 : ℚ) ^ e < (2 : ℚ) ^ (Int.log 2 x + 1) := lt_of_le_of_lt h1 hlt
    have h6 : (2 : ℚ) ^ (Int.log 2 x) < (2 : ℚ) ^ (e + 1) := lt_of_le_of_lt hle h2
    have hone : (1 : ℚ) < 2 := by norm_num
    have h7 : e < Int.log 2 x + 1 := (zpow_lt_zpow_iff_right₀ hone).mp h5
    have h8 : Int.log 2 x < e + 1 := (zpow_lt_zpow_iff_right₀ hone).mp h6
    omega
  show (if x = 0 then 0 else if x < 0 then -roundF32pos (-x) else roundF32pos x) = y
  rw [if_neg (ne_of_gt hx), if_neg (not_lt.mpr hx.le)]
  show (roundHalfEven (x * (2 : ℚ) ^ (23 - Int.log 2 x)) : ℚ) *
      (2 : ℚ) ^ (Int.log 2 x - 23) = y
  rw [hlog, h3]

theorem roundF32_neg (x : ℚ) : roundF32 (-x) = -roundF32 x := by
  unfold roundF32
  rcases lt_trichotomy x 0 with h | h | h
  · rw [if_neg (by intro h0; rw [neg_eq_zero] at h0; exact absurd h0 (ne_of_lt h)),
      if_neg (by rw [not_lt]; exact le_of_lt (neg_pos.mpr h)),
      if_neg (ne_of_lt h), if_pos h, neg_neg]
  · simp [h]
  · rw [if_neg (by intro h0; rw [neg_eq_zero] at h0; exact absurd h0 (ne_of_gt h)),
      if_pos (neg_neg_iff_pos.mpr h), if_neg (ne_of_gt h),
      if_neg (not_lt.mpr h.le), neg_neg]

theorem roundF32_two_thirds_lit :
    roundF32 (11184811 / 16777216) = 11184811 / 16777216 :=
  roundF32_eq _ _ (-1) (by norm_num) (by norm_num)
    (by norm_num [roundHalfEven])

theorem roundF32_one_third_lit :
    roundF32 (11184811 / 33554432) = 11184811 / 33554432 :=
  roundF32_eq _ _ (-2) (by norm_num) (by norm_num)
    (by norm_num [roundHalfEven])

theorem roundF32_tick_up :
    roundF32 (33554433 / 33554432) = 1 :=
  roundF32_eq _ _ 0 (by norm_num) (by norm_num)
    (by norm_num [roundHalfEven])

theorem roundF32_one_minus_two_thirds :
    roundF32 (5592405 / 16777216) = 5592405 / 16777216 :=
  roundF32_eq _ _ (-2) (by norm_num) (by norm_num)
    (by norm_num [roundHalfEven])

theorem roundF32_ulp :
    roundF32 (1 / 33554432) = 1 / 33554432 :=
  roundF32_eq _ _ (-25) (by norm_num) (by norm_num)
    (by norm_num [roundHalfEven])

theorem roundF32_three_ulp :
    roundF32 (3 / 33554432) = 3 / 33554432 :=
  roundF32_eq _ _ (-24) (by norm_num) (by norm_num)
    (by norm_num [roundHalfEven])

theorem roundF32_exact_two_thirds :
    roundF32 (2 / 3) = 11184811 / 16777216 :=
  roundF32_eq _ _ (-1) (by norm_num) (by norm_num)
    (by norm_num [roundHalfEven])

theorem roundF32_exact_one_third :
    roundF32 (1 / 3) = 11184811 / 33554432 :=
  roundF32_eq _ _ (-2) (by norm_num) (by norm_num)
    (by norm_num [roundHalfEven])

theorem roundF32_two_thirds_decimal :
    roundF32 (6666667 / 10000000) = 11184811 / 16777216 :=
  roundF32_eq _ _ (-1) (by norm_num) (by norm_num)
    (by norm_num [roundHalfEven])

theorem roundF32_one_third_decimal :
    roundF32 (33333334 / 100000000) = 11184811 / 33554432 :=
  roundF32_eq _ _ (-2) (by norm_num) (by norm_num)
    (by norm_num [roundHalfEven])

theorem roundF32_offset_shift :
    roundF32 (403 / 800) = 8451523 / 16777216 :=
  roundF32_eq _ _ (-1) (by norm_num) (by norm_num)
    (by norm_num [roundHalfEven])

theorem roundF32_zero : roundF32 0 = 0 := by
  unfold roundF32
  simp

theorem peaks_valleys_noise_at_zero : peaks_valleys_noise 0 = -1 := by
  unfold peaks_valleys_noise
  have h0 : |(0 : ℚ)| - f32_two_thirds = -(11184811 / 16777216) := by
    norm_num [f32_two_thirds]
  rw [h0, roundF32_neg, roundF32_two_thirds_lit]
  have h1 : |(-(11184811 / 16777216) : ℚ)| - f32_one_third =
      11184811 / 33554432 := by
    rw [abs_neg, abs_of_pos (by norm_num : (0 : ℚ) < 11184811 / 16777216)]
    norm_num [f32_one_third]
  rw [h1, roundF32_one_third_lit]
  have h2 : -(11184811 / 33554432 : ℚ) * 3 = -(33554433 / 33554432) := by
    norm_num
  rw [h2, roundF32_neg, roundF32_tick_up]

theorem peaks_valleys_noise_at_one : peaks_valleys_noise 1 = 3 / 33554432 := by
  unfold peaks_valleys_noise
  have h0 : |(1 : ℚ)| - f32_two_thirds = 5592405 / 16777216 := by
    norm_num [f32_two_thirds]
  rw [h0, roundF32_one_minus_two_thirds]
  have h1 : |(5592405 / 16777216 : ℚ)| - f32_one_third = -(1 / 33554432) := by
    rw [abs_of_pos (by norm_num : (0 : ℚ) < 5592405 / 16777216)]
    norm_num [f32_one_third]
  rw [h1, roundF32_neg, roundF32_ulp]
  have h2 : -(-(1 / 33554432) : ℚ) * 3 = 3 / 33554432 := by norm_num
  rw [h2, roundF32_three_ulp]

theorem peaks_valleys_noise_at_two_thirds :
    peaks_valleys_noise f32_two_thirds = 1 := by
  unfold peaks_valleys_noise
  have h0 : |f32_two_thirds| - f32_two_thirds = 0 := by
    rw [abs_of_pos (by norm_num [f32_two_thirds] : (0 : ℚ) < f32_two_thirds),
      sub_self]
  rw [h0, roundF32_zero]
  have h1 : |(0 : ℚ)| - f32_one_third = -(11184811 / 33554432) := by
    norm_num [f32_one_third]
  rw [h1, roundF32_neg, roundF32_one_third_lit]
  have h2 : -(-(11184811 / 33554432) : ℚ) * 3 = 33554433 / 33554432 := by
    norm_num
  rw [h2, roundF32_tick_up]

/-- C4, counterexample: the claim states that `peaks_valleys_noise` yields 1
at `v = 0` and -1 at `v = 1`; on the code it yields -1 at `v = 0` and the
tiny positive value `3 * 2 ^ (-25)` at `v = 1`. -/
theorem peaks_valleys_noise_claim_false :
    peaks_valleys_noise 0 ≠ 1 ∧ peaks_valleys_noise 1 ≠ -1 := by
  rw [peaks_valleys_noise_at_zero, peaks_valleys_noise_at_one]
  norm_num

/-- C4, amended: `peaks_valleys_noise(v)` computes
`-(|(|v| - 0.6666667)| - 0.33333334) * 3` in `f32`, where both constants are
the `f32` roundings of 2/3 and 1/3 (and of the decimal literals of the
source); it yields -1 at `v = 0`, the value `3 * 2 ^ (-25)` (about 8.9e-8,
not -1) at `v = 1`, and 1 at `v = 2/3` (the `f32` value nearest 2/3). -/
theorem peaks_valleys_noise_values :
    peaks_valleys_noise 0 = -1
    ∧ peaks_valleys_noise 1 = 3 / 33554432
    ∧ peaks_valleys_noise f32_two_thirds = 1
    ∧ f32_two_thirds = roundF32 (2 / 3)
    ∧ f32_one_third = roundF32 (1 / 3)
    ∧ f32_two_thirds = roundF32 (6666667 / 10000000)
    ∧ f32_one_third = roundF32 (33333334 / 100000000) :=
  ⟨peaks_valleys_noise_at_zero, peaks_valleys_noise_at_one,
    peaks_valleys_noise_at_two_thirds,
    by rw [roundF32_exact_two_thirds, f32_two_thirds],
    by rw [roundF32_exact_one_third, f32_one_third],
    by rw [roundF32_two_thirds_decimal, f32_two_thirds],
    by rw [roundF32_one_third_decimal, f32_one_third]⟩

/-- C7: the node `YClampedFunction{from: -64, to: 320, from_val: 1.564,
to_val: -1.5}` samples 1.564 at every position with y = -64, -1.5 at
y = 320, and `1.564 + (128 - (-64)) / (320 - (-64)) * (-1.5 - 1.564)` at
y = 128; in general (for `from < to`) sample is linear in the integer y
coordinate between `from` and `to`, its outputs always lie in
`[min(from_val, to_val), max(from_val, to_val)]`, and those two values are
the node reported `min()` and `max()`. -/
theorem yclamped_sample_spec :
    ((∀ x z : Int,
        (DensityFunction.ClampedY (-64) 320 1.564 (-1.5)).sample ⟨x, -64, z⟩ =
          1.564)
      ∧ (∀ x z : Int,
        (DensityFunction.ClampedY (-64) 320 1.564 (-1.5)).sample ⟨x, 320, z⟩ =
          -1.5)
      ∧ (∀ x z : Int,
        (DensityFunction.ClampedY (-64) 320 1.564 (-1.5)).sample ⟨x, 128, z⟩ =
          1.564 + (128 - (-64)) / (320 - (-64)) * (-1.5 - 1.564)))
    ∧ (∀ (fy ty : Int) (fv tv : ℚ) (x y z : Int), fy < ty →
        ((fy ≤ y → y ≤ ty →
          (DensityFunction.ClampedY fy ty fv tv).sample ⟨x, y, z⟩ =
            fv + ((y : ℚ) - (fy : ℚ)) / ((ty : ℚ) - (fy : ℚ)) * (tv - fv))
        ∧ min fv tv ≤ (DensityFunction.ClampedY fy ty fv tv).sample ⟨x, y, z⟩
        ∧ (DensityFunction.ClampedY fy ty fv tv).sample ⟨x, y, z⟩ ≤ max fv tv
        ∧ (DensityFunction.ClampedY fy ty fv tv).minimum = min fv tv
        ∧ (DensityFunction.ClampedY fy ty fv tv).maximum = max fv tv)) := by
  constructor
  · refine ⟨fun x z => ?_, fun x z => ?_, fun x z => ?_⟩ <;>
      norm_num [DensityFunction.sample, clamped_map]
  · intro fy ty fv tv x y z hlt
    have hd : (0 : ℚ) < (ty : ℚ) - (fy : ℚ) := by
      rw [sub_pos]
      exact_mod_cast hlt
    refine ⟨?_, ?_, ?_, rfl, rfl⟩
    · intro h1 h2
      show clamped_map (y : ℚ) (fy : ℚ) (ty : ℚ) fv tv = _
      unfold clamped_map
      have hge : (0 : ℚ) ≤ ((y : ℚ) - (fy : ℚ)) / ((ty : ℚ) - (fy : ℚ)) :=
        div_nonneg (by rw [sub_nonneg]; exact_mod_cast h1) hd.le
      have hle : ((y : ℚ) - (fy : ℚ)) / ((ty : ℚ) - (fy : ℚ)) ≤ 1 := by
        rw [div_le_one hd]
        have : (y : ℚ) ≤ (ty : ℚ) := by exact_mod_cast h2
        linarith
      rw [if_neg (not_lt.mpr hge), if_neg (not_lt.mpr hle)]
    · show min fv tv ≤ clamped_map (y : ℚ) (fy : ℚ) (ty : ℚ) fv tv
      unfold clamped_map
      set d := ((y : ℚ) - (fy : ℚ)) / ((ty : ℚ) - (fy : ℚ)) with hdd
      rcases lt_or_le d 0 with hc | hc
      · rw [if_pos hc]
        exact min_le_left fv tv
      · rw [if_neg (not_lt.mpr hc)]
        rcases lt_or_le 1 d with hc2 | hc2
        · rw [if_pos hc2]
          exact min_le_right fv tv
        · rw [if_neg (not_lt.mpr hc2)]
          rcases le_total fv tv with hft | hft
          · rw [min_eq_left hft]
            nlinarith
          · rw [min_eq_right hft]
            nlinarith
    · show clamped_map (y : ℚ) (fy : ℚ) (ty : ℚ) fv tv ≤ max fv tv
      unfold clamped_map
      set d := ((y : ℚ) - (fy : ℚ)) / ((ty : ℚ) - (fy : ℚ)) with hdd
      rcases lt_or_le d 0 with hc | hc
      · rw [if_pos hc]
        exact le_max_left fv tv
      · rw [if_neg (not_lt.mpr hc)]
        rcases lt_or_le 1 d with hc2 | hc2
        · rw [if_pos hc2]
          exact le_max_right fv tv
        · rw [if_neg (not_lt.mpr hc2)]
          rcases le_total fv tv with hft | hft
          · rw [max_eq_right hft]
            nlinarith
          · rw [max_eq_left hft]
            nlinarith

/-- C7, witness: the general part of `yclamped_sample_spec` applied to the
node `ClampedY(0, 2, 0, 1)` at y = 1, where it gives the midpoint 1/2. -/
theorem yclamped_sample_spec_witness :
    ((0 : Int) < 2)
    ∧ (DensityFunction.ClampedY 0 2 0 1).sample ⟨0, 1, 0⟩ =
        0 + ((1 : ℚ) - ((0 : Int) : ℚ)) / (((2 : Int) : ℚ) - ((0 : Int) : ℚ))
          * (1 - 0) := by
  refine ⟨by norm_num, ?_⟩
  have h := (yclamped_sample_spec.2 0 2 0 1 0 1 0 (by norm_num)).1
    (by norm_num) (by norm_num)
  simpa using h

/-- C10: a `Range` node reports `min() = min(in_range.min(), out_range.min())`
and `max() = max(in_range.max(), out_range.max())`, independently of the
selector input bounds, and whenever both branches keep their samples inside
their own reported bounds, the sample of the `Range` node lies inside the
reported bounds of the `Range` node. -/
theorem range_bounds_spec :
    ∀ (input : DensityFunction) (lo hi : ℚ) (inr outr : DensityFunction)
      (p : UnblendedNoisePos),
      (DensityFunction.Range input lo hi inr outr).minimum =
        min inr.minimum outr.minimum
      ∧ (DensityFunction.Range input lo hi inr outr).maximum =
          max inr.maximum outr.maximum
      ∧ (inr.minimum ≤ inr.sample p → inr.sample p ≤ inr.maximum →
         outr.minimum ≤ outr.sample p → outr.sample p ≤ outr.maximum →
          (DensityFunction.Range input lo hi inr outr).minimum ≤
            (DensityFunction.Range input lo hi inr outr).sample p
          ∧ (DensityFunction.Range input lo hi inr outr).sample p ≤
            (DensityFunction.Range input lo hi inr outr).maximum) := by
  intro input lo hi inr outr p
  refine ⟨rfl, rfl, ?_⟩
  intro h1 h2 h3 h4
  show min inr.minimum outr.minimum ≤ _ ∧ _ ≤ max inr.maximum outr.maximum
  show min inr.minimum outr.minimum ≤
      (if lo ≤ input.sample p ∧ input.sample p < hi then inr.sample p
        else outr.sample p)
    ∧ (if lo ≤ input.sample p ∧ input.sample p < hi then inr.sample p
        else outr.sample p) ≤ max inr.maximum outr.maximum
  split
  · exact ⟨le_trans (min_le_left _ _) h1, le_trans h2 (le_max_left _ _)⟩
  · exact ⟨le_trans (min_le_right _ _) h3, le_trans h4 (le_max_right _ _)⟩

/-- C10, witness: `range_bounds_spec` applied to the node
`Range(Constant(0.5), 0, 1, Constant(7), Constant(9))` at the origin, where
the branch-bound hypotheses hold trivially. -/
theorem range_bounds_spec_witness :
    (DensityFunction.Range (.Constant 0.5) 0 1 (.Constant 7)
        (.Constant 9)).minimum ≤
      (DensityFunction.Range (.Constant 0.5) 0 1 (.Constant 7)
        (.Constant 9)).sample ⟨0, 0, 0⟩
    ∧ (DensityFunction.Range (.Constant 0.5) 0 1 (.Constant 7)
        (.Constant 9)).sample ⟨0, 0, 0⟩ ≤
      (DensityFunction.Range (.Constant 0.5) 0 1 (.Constant 7)
        (.Constant 9)).maximum :=
  (range_bounds_spec (.Constant 0.5) 0 1 (.Constant 7) (.Constant 9)
    ⟨0, 0, 0⟩).2.2 (le_refl _) (le_refl _) (le_refl _) (le_refl _)

/-- C9: the helper `DensityFunction::clamp` declares its parameters in the
order `(max, min)` (the first argument becomes the `max` field, the second
the `min` field), both built-in call sites
(`caves_spaghetti_2d_overworld` and `caves_entrances_overworld`) invoke
`.clamp(-1.0, 1.0)`, so every `Clamp` node of those graphs stores
`min = 1.0` and `max = -1.0`, and no such node satisfies `min <= max`. -/
theorem clamp_parameter_order_spec :
    (∀ (f : DensityFunction) (a b : ℚ), f.clamp a b = .Clamp f b a)
    ∧ (∀ n1 n2 n3 n4 : InternalNoise,
        (caves_spaghetti_2d_overworld n1 n2 n3 n4).clampBounds = [(1, -1)])
    ∧ (∀ m1 m2 m3 m4 m5 m6 m7 : InternalNoise,
        (caves_entrances_overworld m1 m2 m3 m4 m5 m6 m7).clampBounds =
          [(1, -1)])
    ∧ ¬ ((1 : ℚ) ≤ -1) := by
  refine ⟨fun f a b => rfl, fun n1 n2 n3 n4 => ?_,
    fun m1 m2 m3 m4 m5 m6 m7 => ?_, by norm_num⟩ <;>
    norm_num [caves_spaghetti_2d_overworld,
      caves_spaghetti_2d_thickness_modular_overworld, caves_entrances_overworld,
      caves_spaghetti_roughness_function_overworld, noise_in_range, map_range,
      DensityFunction.clamp, DensityFunction.add, DensityFunction.mul,
      DensityFunction.add_const, DensityFunction.mul_const,
      DensityFunction.binary_max, DensityFunction.binary_min,
      DensityFunction.abs, DensityFunction.cube, UnaryFunction.create,
      BinaryFunction.create, DensityFunction.clampBounds]

/-- C2: `sloped_cheese_function` realises the section 4.3 recipe.  For every
position, the depth node samples as `ClampedY(-64, 320, 1.564, -1.5)` plus
the offset node; the offset node samples as the blended offset spline
shifted by `-0.50375f32 as f64` (that constant is minus the `f32` rounding
of 0.50375, widened to `f64`); and the sloped-cheese node samples as
`Constant(4) * QuartNeg((depth + jaggedness * HalfNeg(jagged_noise)) *
factor) + base_3d_noise`. -/
theorem sloped_cheese_function_spec :
    ∀ (sb : SplineBuilders)
      (jagged_noise continents erosion ridges ridges_folded blend_offset ten
        zero base_3d_noise : DensityFunction) (amplified : Bool)
      (p : UnblendedNoisePos),
      ((sloped_cheese_function sb jagged_noise continents erosion ridges
          ridges_folded blend_offset ten zero base_3d_noise
          amplified).depth).sample p =
        (DensityFunction.ClampedY (-64) 320 1.564 (-1.5)).sample p +
          ((sloped_cheese_function sb jagged_noise continents erosion ridges
            ridges_folded blend_offset ten zero base_3d_noise
            amplified).offset).sample p
      ∧ ((sloped_cheese_function sb jagged_noise continents erosion ridges
          ridges_folded blend_offset ten zero base_3d_noise
          amplified).offset).sample p =
        sb.create_offset_spline continents erosion ridges amplified p +
          offset_shift_const
      ∧ offset_shift_const = -roundF32 (0.50375)
      ∧ ((sloped_cheese_function sb jagged_noise continents erosion ridges
          ridges_folded blend_offset ten zero base_3d_noise
          amplified).sloped_cheese).sample p =
        4 * UnaryType.QuartNeg.apply_density
          ((((sloped_cheese_function sb jagged_noise continents erosion ridges
              ridges_folded blend_offset ten zero base_3d_noise
              amplified).depth).sample p +
            ((sloped_cheese_function sb jagged_noise continents erosion ridges
              ridges_folded blend_offset ten zero base_3d_noise
              amplified).jaggedness).sample p *
              UnaryType.HalfNeg.apply_density (jagged_noise.sample p)) *
            ((sloped_cheese_function sb jagged_noise continents erosion ridges
              ridges_folded blend_offset ten zero base_3d_noise
              amplified).factor).sample p) +
          base_3d_noise.sample p := by
  intro sb jagged_noise continents erosion ridges ridges_folded blend_offset
    ten zero base_3d_noise amplified p
  have hconst : offset_shift_const = -roundF32 (0.50375) := by
    have : (0.50375 : ℚ) = 403 / 800 := by norm_num
    rw [this, roundF32_offset_shift, offset_shift_const]
  have hoffset :
      ((sloped_cheese_function sb jagged_noise continents erosion ridges
        ridges_folded blend_offset ten zero base_3d_noise
        amplified).offset).sample p =
      sb.create_offset_spline continents erosion ridges amplified p +
        offset_shift_const := by
    show (apply_blending
        ((DensityFunction.Spline
          (sb.create_offset_spline continents erosion ridges
            amplified)).add_const offset_shift_const)
        blend_offset).sample p = _
    rw [sample_apply_blending, sample_add_const]
    rfl
  refine ⟨?_, hoffset, hconst, ?_⟩
  · show ((DensityFunction.ClampedY (-64) 320 1.564 (-1.5)).add
        ((sloped_cheese_function sb jagged_noise continents erosion ridges
          ridges_folded blend_offset ten zero base_3d_noise
          amplified).offset)).sample p = _
    rw [sample_add]
  · show (((DensityFunction.Constant 4).mul
        ((((sloped_cheese_function sb jagged_noise continents erosion ridges
            ridges_folded blend_offset ten zero base_3d_noise
            amplified).depth).add
          (((sloped_cheese_function sb jagged_noise continents erosion ridges
            ridges_folded blend_offset ten zero base_3d_noise
            amplified).jaggedness).mul
            jagged_noise.half_negative)).mul
          ((sloped_cheese_function sb jagged_noise continents erosion ridges
            ridges_folded blend_offset ten zero base_3d_noise
            amplified).factor)).quarter_negative).add
        base_3d_noise).sample p = _
    rw [sample_add, sample_mul]
    show (4 : ℚ) * UnaryType.QuartNeg.apply_density ((((_ : DensityFunction).add
        _).mul _).sample p) + _ = _
    rw [sample_mul, sample_add, sample_mul]
    show _ * UnaryType.QuartNeg.apply_density ((_ + _ *
        (UnaryType.HalfNeg.apply_density (jagged_noise.sample p))) * _) + _ = _
    rfl

theorem applyVisitor_unwrap_wrapperFree (g : DensityFunction) :
    (g.applyVisitor unwrapVisitor).wrapperFree = true := by
  induction g <;>
    simp_all [DensityFunction.applyVisitor, unwrapVisitor,
      DensityFunction.wrapperFree]

theorem applyVisitor_unwrap_of_wrapperFree (g : DensityFunction)
    (h : g.wrapperFree = true) : g.applyVisitor unwrapVisitor = g := by
  induction g <;>
    simp_all [DensityFunction.applyVisitor, unwrapVisitor,
      DensityFunction.wrapperFree]

/-- C5: rewriting a graph with `UnwrapVisitor` is idempotent: one post-order
application (children first, then the node itself) already removes every
`Wrapper` node, `UnwrapVisitor` is the identity on every non-`Wrapper` node,
a wrapper-free graph is left unchanged, and hence applying the rewrite twice
yields the same graph as applying it once. -/
theorem unwrap_visitor_idempotent :
    ∀ g : DensityFunction,
      (g.applyVisitor unwrapVisitor).wrapperFree = true
      ∧ (g.isWrapper = false → unwrapVisitor g = g)
      ∧ (g.wrapperFree = true → g.applyVisitor unwrapVisitor = g)
      ∧ (g.applyVisitor unwrapVisitor).applyVisitor unwrapVisitor =
          g.applyVisitor unwrapVisitor := by
  intro g
  refine ⟨applyVisitor_unwrap_wrapperFree g, ?_, applyVisitor_unwrap_of_wrapperFree g,
    applyVisitor_unwrap_of_wrapperFree _ (applyVisitor_unwrap_wrapperFree g)⟩
  intro h
  cases g <;> first
    | rfl
    | exact absurd h (by simp [DensityFunction.isWrapper])

/-- C5, witness: `unwrap_visitor_idempotent` at two concrete graphs: the
non-wrapper node `Constant 3` (for the two conditional components) and a
doubly wrapped constant (for idempotence). -/
theorem unwrap_visitor_idempotent_witness :
    (unwrapVisitor (.Constant 3) = .Constant 3
      ∧ (DensityFunction.Constant 3).applyVisitor unwrapVisitor = .Constant 3)
    ∧ ((DensityFunction.Wrapper
          (.Wrapper (.Constant 3) .Cache2D) .CacheFlat).applyVisitor
        unwrapVisitor).applyVisitor unwrapVisitor =
      (DensityFunction.Wrapper
        (.Wrapper (.Constant 3) .Cache2D) .CacheFlat).applyVisitor
        unwrapVisitor :=
  ⟨⟨(unwrap_visitor_idempotent (.Constant 3)).2.1 rfl,
    (unwrap_visitor_idempotent (.Constant 3)).2.2.1 rfl⟩,
    (unwrap_visitor_idempotent
      (.Wrapper (.Wrapper (.Constant 3) .Cache2D) .CacheFlat)).2.2.2⟩

theorem length_fillWith (g : Nat → ℚ) (k : Nat) : (fillWith g k).length = k := by
  simp [fillWith]

theorem getElem?_fillWith (g : Nat → ℚ) (k i : Nat) (h : i < k) :
    (fillWith g k)[i]? = some (g i) := by
  simp [fillWith, List.getElem?_range, h]

/-- C3: for each node kind implemented in `mod.rs` (`Constant`,
`Beardifyer`, `Wrapper`, `Range`, `ClampedY`) on an unbound graph, `fill`
leaves slot `i` of the buffer equal to `sample(at(i))` for every index below
the buffer length, assuming the children of the node satisfy the same
fill/sample consistency. -/
theorem fill_buffer_matches_sample :
    (∀ v : ℚ, FillConsistent (.Constant v))
    ∧ FillConsistent .Beardifyer
    ∧ (∀ (input : DensityFunction) (w : WrapperType),
        FillConsistent input → FillConsistent (.Wrapper input w))
    ∧ (∀ (input : DensityFunction) (lo hi : ℚ) (inr outr : DensityFunction),
        FillConsistent input → FillConsistent inr → FillConsistent outr →
        FillConsistent (.Range input lo hi inr outr))
    ∧ (∀ (fy ty : Int) (fv tv : ℚ), FillConsistent (.ClampedY fy ty fv tv)) := by
  refine ⟨?_, ?_, ?_, ?_, ?_⟩
  · intro v buf a
    refine ⟨by simp [DensityFunction.fill], fun i h => ?_⟩
    simp [DensityFunction.fill, DensityFunction.sample,
      List.getElem?_eq_getElem h, List.getElem?_replicate, h]
  · intro buf a
    refine ⟨by simp [DensityFunction.fill], fun i h => ?_⟩
    simp [DensityFunction.fill, DensityFunction.sample,
      List.getElem?_eq_getElem h, List.getElem?_replicate, h]
  · intro input w hin buf a
    exact ⟨(hin buf a).1, fun i h => (hin buf a).2 i h⟩
  · intro input lo hi inr outr hin _ _ buf a
    have hlen : (input.fill buf a).length = buf.length := (hin buf a).1
    constructor
    · show (fillWith _ (input.fill buf a).length).length = _
      rw [length_fillWith, hlen]
    · intro i h
      have hi : i < (input.fill buf a).length := by rw [hlen]; exact h
      show (fillWith _ (input.fill buf a).length)[i]? = _
      rw [getElem?_fillWith _ _ _ hi]
      have hval : (input.fill buf a).getD i 0 = input.sample (a.atIdx i) := by
        rw [List.getD_eq_getElem?_getD, (hin buf a).2 i h]
        rfl
      rw [hval]
      rfl
  · intro fy ty fv tv buf a
    refine ⟨?_, fun i h => ?_⟩
    · show (fillWith _ buf.length).length = _
      rw [length_fillWith]
    · show (fillWith _ buf.length)[i]? = _
      rw [getElem?_fillWith _ _ _ h]

/-- C3, witness: the `Range` component of `fill_buffer_matches_sample`
applied to `Range(Constant(0.5), 0, 1, Constant(7), Constant(9))` over a
two-slot buffer, the hypotheses discharged by the `Constant` component;
slot 0 receives the in-range branch value 7. -/
theorem fill_buffer_matches_sample_witness :
    ((DensityFunction.Range (.Constant 0.5) 0 1 (.Constant 7)
        (.Constant 9)).fill [0, 0] ⟨fun _ => ⟨0, 0, 0⟩⟩)[0]? = some 7 := by
  have h := (fill_buffer_matches_sample.2.2.2.1 (.Constant 0.5) 0 1
      (.Constant 7) (.Constant 9)
      (fill_buffer_matches_sample.1 0.5)
      (fill_buffer_matches_sample.1 7)
      (fill_buffer_matches_sample.1 9)
      [0, 0] ⟨fun _ => ⟨0, 0, 0⟩⟩).2 0 (by norm_num)
  rw [h]
  norm_num [DensityFunction.sample]

/-- C9, witness: `clamp_parameter_order_spec` applied to a concrete clamp
call and to the spaghetti-2d graph over trivial noise records. -/
theorem clamp_parameter_order_spec_witness :
    (DensityFunction.Constant 0).clamp (-1) 1 =
      .Clamp (.Constant 0) 1 (-1)
    ∧ (caves_spaghetti_2d_overworld ⟨fun _ _ _ => 0, 1⟩ ⟨fun _ _ _ => 0, 1⟩
        ⟨fun _ _ _ => 0, 1⟩ ⟨fun _ _ _ => 0, 1⟩).clampBounds = [(1, -1)] :=
  ⟨clamp_parameter_order_spec.1 (.Constant 0) (-1) 1,
    clamp_parameter_order_spec.2.1 _ _ _ _⟩

theorem roundF64_eq (x y : ℚ) (e : Int) (h1 : (2 : ℚ) ^ e ≤ x)
    (h2 : x < (2 : ℚ) ^ (e + 1))
    (h3 : (roundHalfEven (x * (2 : ℚ) ^ (52 - e)) : ℚ) * (2 : ℚ) ^ (e - 52) = y) :
    roundF64 x = y := by
  have hx : 0 < x := lt_of_lt_of_le (zpow_pos (by norm_num) e) h1
  have hlog : Int.log 2 x = e := by
    have hb : (1 : ℕ) < 2 := by norm_num
    have hcast : ((2 : ℕ) : ℚ) = 2 := by norm_num
    have hle : (2 : ℚ) ^ (Int.log 2 x) ≤ x := by
      have := Int.zpow_log_le_self (b := 2) (r := x) hb hx
      rwa [hcast] at this
    have hlt : x < (2 : ℚ) ^ (Int.log 2 x + 1) := by
      have := Int.lt_zpow_succ_log_self (b := 2) (r := x) hb
      rwa [hcast] at this
    have h5 : (2 : ℚ) ^ e < (2 : ℚ) ^ (Int.log 2 x + 1) := lt_of_le_of_lt h1 hlt
    have h6 : (2 : ℚ) ^ (Int.log 2 x) < (2 : ℚ) ^ (e + 1) := lt_of_le_of_lt hle h2
    have hone : (1 : ℚ) < 2 := by norm_num
    have h7 : e < Int.log 2 x + 1 := (zpow_lt_zpow_iff_right₀ hone).mp h5
    have h8 : Int.log 2 x < e + 1 := (zpow_lt_zpow_iff_right₀ hone).mp h6
    omega
  show (if x = 0 then 0 else if x < 0 then -roundF64pos (-x) else roundF64pos x) = y
  rw [if_neg (ne_of_gt hx), if_neg (not_lt.mpr hx.le)]
  show (roundHalfEven (x * (2 : ℚ) ^ (52 - Int.log 2 x)) : ℚ) *
      (2 : ℚ) ^ (Int.log 2 x - 52) = y
  rw [hlog, h3]

theorem roundF64_neg (x : ℚ) : roundF64 (-x) = -roundF64 x := by
  unfold roundF64
  rcases lt_trichotomy x 0 with h | h | h
  · rw [if_neg (by intro h0; rw [neg_eq_zero] at h0; exact absurd h0 (ne_of_lt h)),
      if_neg (by rw [not_lt]; exact le_of_lt (neg_pos.mpr h)),
      if_neg (ne_of_lt h), if_pos h, neg_neg]
  · simp [h]
  · rw [if_neg (by intro h0; rw [neg_eq_zero] at h0; exact absurd h0 (ne_of_gt h)),
      if_pos (neg_neg_iff_pos.mpr h), if_neg (ne_of_gt h),
      if_neg (not_lt.mpr h.le), neg_neg]

theorem roundF64_zero : roundF64 0 = 0 := by
  unfold roundF64
  simp

theorem roundF64_one : roundF64 1 = 1 :=
  roundF64_eq _ _ 0 (by norm_num) (by norm_num)
    (by norm_num [roundHalfEven])

theorem roundF64_half : roundF64 (1 / 2) = 1 / 2 :=
  roundF64_eq _ _ (-1) (by norm_num) (by norm_num)
    (by norm_num [roundHalfEven])

theorem roundF64_below_one :
    roundF64 (1152921504606846975 / 1152921504606846976) = 1 :=
  roundF64_eq _ _ (-1) (by norm_num) (by norm_num)
    (by norm_num [roundHalfEven])

theorem isConstant_eq_true_iff (s : DensityFunction) :
    s.isConstant = true ↔ ∃ c, s = .Constant c := by
  cases s <;> simp [DensityFunction.isConstant]

theorem create_add_const_shape (M : DensityFunction) (c : ℚ)
    (hM : M.isLinear = false) (hc : c ≠ 0) :
    BinaryFunction.create .Add M (.Constant c) = .Binary .Add M (.Constant c) := by
  cases M <;> first
    | (simp only [BinaryFunction.create]; rw [if_neg hc]; done)
    | simp [DensityFunction.isLinear] at hM

theorem sampleF64_mul_zero_left (T : DensityFunction) (p : UnblendedNoisePos) :
    (BinaryFunction.create .Mul (.Constant 0) T).sampleF64 p = 0
    ∧ (BinaryFunction.create .Mul (.Constant 0) T).isLinear = false := by
  cases T
  case Constant k =>
    simp only [BinaryFunction.create]
    by_cases hk1 : k = 1
    · rw [if_pos hk1]
      exact ⟨rfl, rfl⟩
    · rw [if_neg hk1]
      by_cases hk0 : k = 0
      · rw [if_pos hk0]
        exact ⟨rfl, rfl⟩
      · rw [if_neg hk0]
        refine ⟨?_, rfl⟩
        simp only [DensityFunction.sampleF64, zero_mul, roundF64_zero]
  all_goals
    refine ⟨?_, rfl⟩
    simp only [DensityFunction.sampleF64, zero_mul, roundF64_zero]

theorem sampleF64_add_const_of_zero (M : DensityFunction) (c : ℚ)
    (p : UnblendedNoisePos) (hM : M.isLinear = false) (h0 : M.sampleF64 p = 0)
    (hc : roundF64 c = c) : (M.add_const c).sampleF64 p = c := by
  show (BinaryFunction.create .Add M (.Constant c)).sampleF64 p = c
  by_cases hz : c = 0
  · subst hz
    have hM0 : BinaryFunction.create .Add M (.Constant 0) = M := by
      simp [BinaryFunction.create]
    rw [hM0, h0]
  · rw [create_add_const_shape M c hM hz]
    simp only [DensityFunction.sampleF64]
    rw [h0, zero_add, hc]

theorem lerp_generic_shape (d s e : DensityFunction)
    (hs : s.isConstant = false) :
    lerp_density d s e =
      .Binary .Add
        (.Binary .Mul s
          (.Binary .Add (.Binary .Mul (.Wrapper d .CacheOnce) (.Constant (-1)))
            (.Constant 1)))
        (.Binary .Mul e (.Wrapper d .CacheOnce)) := by
  cases s <;> first
    | (norm_num [lerp_density, DensityFunction.mul, DensityFunction.mul_const,
        DensityFunction.add, DensityFunction.add_const, BinaryFunction.create];
        done)
    | simp [DensityFunction.isConstant] at hs

/-- C8, counterexample: in faithful binary64 arithmetic the claimed equality
`lerp_density(Constant(1), s, e).sample(p) = e.sample(p)` fails on the
constant-start specialization: at `s = Constant(1)` and
`e = Constant(2 ^ (-60))` the program computes
`fl(fl(2 ^ (-60) - 1) + 1) = fl(-1 + 1) = 0`, not `2 ^ (-60)`. -/
theorem lerp_density_delta_one_claim_false :
    (lerp_density (.Constant 1) (.Constant 1)
        (.Constant (1 / 1152921504606846976))).sampleF64 ⟨0, 0, 0⟩ = 0
    ∧ (DensityFunction.Constant (1 / 1152921504606846976)).sampleF64 ⟨0, 0, 0⟩ =
        1 / 1152921504606846976
    ∧ (0 : ℚ) ≠ 1 / 1152921504606846976 := by
  refine ⟨?_, rfl, by norm_num⟩
  have hshape : lerp_density (.Constant 1) (.Constant 1)
      (.Constant (1 / 1152921504606846976)) =
      .Binary .Add (.Binary .Mul (.Constant 1)
        (.Binary .Add (.Constant (1 / 1152921504606846976)) (.Constant (-1))))
        (.Constant 1) := by
    norm_num [lerp_density, lerp_density_static_start, DensityFunction.mul,
      DensityFunction.add_const, DensityFunction.add, BinaryFunction.create]
  rw [hshape]
  show roundF64 (roundF64 ((1 : ℚ) *
      roundF64 ((1 / 1152921504606846976 : ℚ) + -1)) + 1) = 0
  have h1 : (1 / 1152921504606846976 : ℚ) + -1 =
      -(1152921504606846975 / 1152921504606846976) := by norm_num
  rw [h1, roundF64_neg, roundF64_below_one]
  have h2 : (1 : ℚ) * -1 = -1 := by norm_num
  rw [h2, roundF64_neg, roundF64_one]
  rw [show (-(1 : ℚ) + 1) = 0 by norm_num, roundF64_zero]

/-- C8, amended: `lerp_density(Constant(0), s, e).sample(p) = s.sample(p)`
and `lerp_density(Constant(1), s, e).sample(p) = e.sample(p)` hold for all
density functions in exact arithmetic, on both the generic path (delta
wrapped in a `CacheOnce` wrapper) and the constant-start specialization.
In binary64 arithmetic (every `f64` addition and multiplication rounded, as
the program computes) the delta = 0 degeneracy still holds on both paths and
the delta = 1 degeneracy still holds on the generic path, provided the
sampled values are binary64 values, as they are in the program; but on the
constant-start specialization `delta * (e - s) + s` taken when `s` is a
`Constant` node, the delta = 1 case computes `fl(fl(1 * fl(e - s)) + s)`,
which can differ from `e.sample(p)` by rounding (at `s = Constant(1)`,
`e = Constant(2 ^ (-60))` it returns 0). -/
theorem lerp_density_degeneracies_amended :
    (∀ (s e : DensityFunction) (p : UnblendedNoisePos),
      (lerp_density (.Constant 0) s e).sample p = s.sample p
      ∧ (lerp_density (.Constant 1) s e).sample p = e.sample p)
    ∧ (∀ (s e : DensityFunction) (p : UnblendedNoisePos),
        roundF64 (s.sampleF64 p) = s.sampleF64 p →
        (lerp_density (.Constant 0) s e).sampleF64 p = s.sampleF64 p)
    ∧ (∀ (s e : DensityFunction) (p : UnblendedNoisePos),
        s.isConstant = false →
        roundF64 (e.sampleF64 p) = e.sampleF64 p →
        (lerp_density (.Constant 1) s e).sampleF64 p = e.sampleF64 p)
    ∧ (∀ (c : ℚ) (e : DensityFunction) (p : UnblendedNoisePos),
        c ≠ 0 → e.isLinear = false →
        (lerp_density (.Constant 1) (.Constant c) e).sampleF64 p =
          roundF64 (roundF64 ((1 : ℚ) * roundF64 (e.sampleF64 p + -c)) + c)) := by
  refine ⟨?_, ?_, ?_, ?_⟩
  · intro s e p
    constructor <;> rw [sample_lerp_density] <;>
      simp [DensityFunction.sample]
  · intro s e p h
    cases hC : s.isConstant
    · rw [lerp_generic_shape _ _ _ hC]
      simp only [DensityFunction.sampleF64]
      simp only [zero_mul, mul_zero, roundF64_zero, zero_add, add_zero,
        roundF64_one, mul_one, h]
    · obtain ⟨c, rfl⟩ := (isConstant_eq_true_iff s).mp hC
      exact sampleF64_add_const_of_zero _ c p
        (sampleF64_mul_zero_left (e.add_const (-c)) p).2
        (sampleF64_mul_zero_left (e.add_const (-c)) p).1 h
  · intro s e p hs he
    rw [lerp_generic_shape _ _ _ hs]
    simp only [DensityFunction.sampleF64]
    have h1 : (1 : ℚ) * -1 = -1 := by norm_num
    rw [h1, roundF64_neg, roundF64_one,
      show (-(1 : ℚ) + 1) = 0 by norm_num, roundF64_zero]
    simp only [mul_zero, mul_one, roundF64_zero, zero_add, he]
  · intro c e p hc he
    have hshape : lerp_density (.Constant 1) (.Constant c) e =
        .Binary .Add
          (.Binary .Mul (.Constant 1) (.Binary .Add e (.Constant (-c))))
          (.Constant c) := by
      show (((DensityFunction.Constant 1).mul (e.add_const (-c))).add_const c)
        = _
      have h1 : e.add_const (-c) = .Binary .Add e (.Constant (-c)) :=
        create_add_const_shape e (-c) he (neg_ne_zero.mpr hc)
      show (((DensityFunction.Constant 1).mul (e.add_const (-c))).add_const c)
        = _
      rw [show (DensityFunction.Constant 1).mul (e.add_const (-c)) =
          BinaryFunction.create .Mul (.Constant 1) (e.add_const (-c)) from rfl,
        h1]
      exact create_add_const_shape
        (.Binary .Mul (.Constant 1) (.Binary .Add e (.Constant (-c)))) c rfl hc
    rw [hshape]
    simp only [DensityFunction.sampleF64]

/-- C8, witness: the amended theorem applied at concrete inputs: the
delta = 0 degeneracy at `s = Beardifyer`, the delta = 1 generic path at
`s = Beardifyer`, `e = Constant(1/2)`, and the delta = 1 constant-start
characterization at `s = Constant(2)`, `e = Constant(0)`. -/
theorem lerp_density_degeneracies_amended_witness :
    (lerp_density (.Constant 0) .Beardifyer (.Constant (1 / 2))).sampleF64
        ⟨0, 0, 0⟩ = 0
    ∧ (lerp_density (.Constant 1) .Beardifyer (.Constant (1 / 2))).sampleF64
        ⟨0, 0, 0⟩ = 1 / 2
    ∧ (lerp_density (.Constant 1) (.Constant 2) (.Constant 0)).sampleF64
        ⟨0, 0, 0⟩ =
      roundF64 (roundF64 ((1 : ℚ) *
        roundF64 ((DensityFunction.Constant 0).sampleF64 ⟨0, 0, 0⟩ + -2)) + 2) :=
  ⟨lerp_density_degeneracies_amended.2.1 .Beardifyer (.Constant (1 / 2))
      ⟨0, 0, 0⟩ roundF64_zero,
    lerp_density_degeneracies_amended.2.2.1 .Beardifyer (.Constant (1 / 2))
      ⟨0, 0, 0⟩ rfl roundF64_half,
    lerp_density_degeneracies_amended.2.2.2 2 (.Constant 0) ⟨0, 0, 0⟩
      (by norm_num) rfl⟩
